import Mathlib

/-!
Verification of the front-end ingestion and lexical-analysis core of the
conjure compiler, embedded from `src/compiler/mod.rs`.

The `Compiler` struct and its methods (`new`, `new_using_str`,
`new_using_ast`, `compile`, `interpret`) are translated from the Rust
source.  The collaborating items that the source imports from elsewhere in
the repository (`Scanner`, `Ast`, `Error` from `crate::prelude`, `EXT` from
`crate::cli::constants`) are not under `src/`; those are modelled from the
specification and carry a doc comment saying so.

Rust standard-library behaviour used by the source (`Path::extension`,
`Path::join`, `str::trim_end`, `str::split`) is embedded as executable
functions on character lists, and the filesystem (`fs::read_to_string`) as
an oracle `String -> Option String` (`none` = read failure).  The working
directory returned by `env::current_dir()` is passed in as a parameter.
-/

namespace Conjure

/-- Rust `char::is_whitespace`: the Unicode `White_Space` property. -/
def isRustWhitespace (ch : Char) : Bool :=
  let n := ch.toNat
  n = 0x9 || n = 0xA || n = 0xB || n = 0xC || n = 0xD || n = 0x20 ||
  n = 0x85 || n = 0xA0 || n = 0x1680 ||
  (Nat.ble 0x2000 n && Nat.ble n 0x200A) ||
  n = 0x2028 || n = 0x2029 || n = 0x202F || n = 0x205F || n = 0x3000

/-- Rust `str::trim_end` on a character list: drop the longest whitespace
suffix. -/
def trimEndChars (l : List Char) : List Char :=
  (l.reverse.dropWhile isRustWhitespace).reverse

/-- Rust `str::trim_end` lifted to strings (used at `mod.rs:48`). -/
def rustTrimEnd (s : String) : String :=
  String.mk (trimEndChars s.data)

/-- Rust `str::split(sep)`: the (always nonempty) list of chunks between
occurrences of `sep`.  `""` splits to `[""]`, a trailing separator yields a
trailing empty chunk, matching Rust. -/
def splitOnChar (sep : Char) : List Char → List (List Char)
  | [] => [[]]
  | ch :: rest =>
    if ch = sep then [] :: splitOnChar sep rest
    else
      match splitOnChar sep rest with
      | [] => [[ch]]
      | chunk :: chunks => (ch :: chunk) :: chunks

/-- The line decomposition used by scanning: `split('\n')`
(`mod.rs:134`, commented dispatch loop / spec section 4.3). -/
def splitLines (l : List Char) : List (List Char) :=
  splitOnChar '\n' l

/-- Rust `Path::file_name`: the last path component, skipping empty
components and `.`; `none` when the path ends in `..` or has no
component. -/
def pathFileName (p : List Char) : Option (List Char) :=
  let comps := (splitOnChar '/' p).filter (fun c => !c.isEmpty && c != ['.'])
  match comps.getLast? with
  | none => none
  | some last => if last = ['.', '.'] then none else some last

/-- Rust `Path::extension` restricted to a file name: the portion after the
final `.`; `none` when there is no `.`, or when the only `.` is the leading
character (hidden files such as `.gitignore`). -/
def fileExtension (f : List Char) : Option (List Char) :=
  let r := f.reverse
  let pre := r.takeWhile (fun ch => ch != '.')
  if pre.length = r.length then none
  else if pre.length + 1 = r.length then none
  else some pre.reverse

/-- Rust `Path::extension` (`mod.rs:41`). -/
def pathExtension (p : List Char) : Option (List Char) :=
  (pathFileName p).bind fileExtension

/-- Rust `Path::join` on Unix (`mod.rs:40`): an absolute right operand
replaces the base path. -/
def joinPath (cwd input : List Char) : List Char :=
  if input.head? = some '/' then input else cwd ++ '/' :: input

/-- Token kinds.  Modelled from the spec: the exact vocabulary is a
collaborator decision of the grammar; this model fixes the four kinds the
spec's round-trip property names (keyword, identifier, operator, number
literal). -/
inductive TokenKind
  | keyword
  | identifier
  | operator
  | numberLiteral
deriving DecidableEq

/-- A lexical token: kind, exact source substring, 1-based position.
Modelled from the spec's Token data model. -/
structure Token where
  kind : TokenKind
  lexeme : String
  line : Nat
  col : Nat
deriving DecidableEq

/-- Diagnostic severity.  Modelled from the spec's Diagnostic data model. -/
inductive Severity
  | error
  | warning
deriving DecidableEq

/-- Modelled from the spec: the repository's `Error` type
(`crate::prelude::Error`, not under `src/`), instantiated with the spec's
Diagnostic fields: severity, message, 1-based position, phase. -/
structure Error where
  severity : Severity
  message : String
  line : Nat
  col : Nat
  phase : String
deriving DecidableEq

/-- Identifier head characters. -/
def isIdentStart (ch : Char) : Bool :=
  ch.isAlpha || ch == '_'

/-- Identifier continuation characters. -/
def isIdentChar (ch : Char) : Bool :=
  ch.isAlphanum || ch == '_'

/-- Single-character operators. -/
def isOpChar (ch : Char) : Bool :=
  ch == '+' || ch == '-' || ch == '*' || ch == '/' || ch == '='

/-- Keyword vocabulary.  Modelled from the spec: only `let` is pinned down
(round-trip property, spec section 8). -/
def keywords : List String := ["let"]

/-- Modelled from the spec: the per-line Scanner (`crate::prelude::Scanner`
is not under `src/`).  Given the 1-based line number, the current 1-based
column and the remaining characters, produce the ordered token list for the
line, and on the first unrecognized character a diagnostic (the tokens
produced before the failure point are kept).  The `fuel` argument makes the
recursion structural; `lineResult` supplies more fuel than the line is
long, so the fuel-exhausted branch is never taken. -/
def scanChars (line : Nat) : Nat → Nat → List Char → List Token × Option Error
  | 0, _, _ => ([], none)
  | _ + 1, _, [] => ([], none)
  | fuel + 1, col, ch :: rest =>
    if ch == ' ' || ch == '\t' then
      scanChars line fuel (col + 1) rest
    else if isIdentStart ch then
      let tail := rest.takeWhile isIdentChar
      let lex := String.mk (ch :: tail)
      let kind := if keywords.contains lex then TokenKind.keyword else TokenKind.identifier
      let next := scanChars line fuel (col + 1 + tail.length) (rest.dropWhile isIdentChar)
      (Token.mk kind lex line col :: next.1, next.2)
    else if ch.isDigit then
      let tail := rest.takeWhile Char.isDigit
      let next := scanChars line fuel (col + 1 + tail.length) (rest.dropWhile Char.isDigit)
      (Token.mk TokenKind.numberLiteral (String.mk (ch :: tail)) line col :: next.1, next.2)
    else if isOpChar ch then
      let next := scanChars line fuel (col + 1) rest
      (Token.mk TokenKind.operator (String.mk [ch]) line col :: next.1, next.2)
    else
      ([], some (Error.mk Severity.error ("unrecognized character: " ++ String.mk [ch]) line col "lexical"))

/-- The Scanner's per-line contract (spec section 4.2): line index `idx` is
0-based, reported positions are 1-based. -/
def lineResult (idx : Nat) (l : List Char) : List Token × Option Error :=
  scanChars (idx + 1) (l.length + 1) 1 l

/-- Sequential mode of the Scan Coordinator (spec section 4.3): dispatch
each line in index order, concatenate per-line token lists, collect
per-line diagnostics in line order. -/
def seqScanLines (lines : List (List Char)) : List Token × List Error :=
  let results := (List.range lines.length).map (fun i => lineResult i (lines.getD i []))
  ((results.map Prod.fst).flatten, results.filterMap Prod.snd)

/-- Sequential scan of a whole text body. -/
def seqScan (text : String) : List Token × List Error :=
  seqScanLines (splitLines text.data)

/-- Modelled from the spec: one completed line task stores its result in
the slot of its own line index, never by arrival order (spec sections 4.3
and 9). -/
def taskStep (lines : List (List Char))
    (acc : Nat → Option (List Token × Option Error)) (i : Nat) :
    Nat → Option (List Token × Option Error) :=
  if i < lines.length then
    fun k => if k = i then some (lineResult i (lines.getD i [])) else acc k
  else acc

/-- Modelled from the spec: the parallel mode's index-keyed collection
point.  `order` is the order in which the line tasks complete; the slots
start empty and each completion fills its own line's slot. -/
def taskResults (lines : List (List Char)) (order : List Nat) :
    Nat → Option (List Token × Option Error) :=
  order.foldl (taskStep lines) (fun _ => none)

/-- Modelled from the spec: parallel mode of the Scan Coordinator.  One
task per line completes in the order given by `order`; results are
collected keyed by line index, and the stream is reassembled in ascending
index order only after every index has reported (`none` otherwise). -/
def parScan (text : String) (order : List Nat) : Option (List Token × List Error) :=
  let lines := splitLines text.data
  let m := taskResults lines order
  if (List.range lines.length).all (fun i => (m i).isSome) then
    let results := (List.range lines.length).map (fun i => (m i).getD ([], none))
    some ((results.map Prod.fst).flatten, results.filterMap Prod.snd)
  else
    none

/-- Modelled from the spec: the pre-built syntax tree
(`crate::prelude::Ast`, not under `src/`); its internal structure is out of
scope for this core. -/
inductive Ast
  | mk
deriving DecidableEq

/-- The `Compiler` struct (`mod.rs:14-21`): provenance identifier,
optional output identifier, two independently optional source
representations (`contents`, `ast`), an empty untyped context, and the
accumulated error list. -/
structure Compiler where
  input : String
  output : Option String
  contents : Option String
  ast : Option Ast
  context : List Unit
  errors : List Error
deriving DecidableEq

/-- Modelled from the spec: the required file extension
(`crate::cli::constants::EXT`, not under `src/`); a single constant string
whose concrete value the spec leaves to the constants module. -/
def EXT : String := "conj"

/-- Construction-time failures of `Compiler::new`: the
`anyhow!("Invalid extension: ...")` value at `mod.rs:44` and the `?`-raised
read failure at `mod.rs:47`. -/
inductive ConstructError
  | invalidExtension (found : String) (expected : String)
  | io
deriving DecidableEq

/-- Outcome of `Compiler::new`: `Ok`, `Err`, or a panic from the
`Option::unwrap` at `mod.rs:41`. -/
inductive NewResult
  | ok (c : Compiler)
  | err (e : ConstructError)
  | panicked
deriving DecidableEq

/-- `Compiler::new` (`mod.rs:38-61`): join `input` onto the working
directory, unwrap the path's extension (panicking when it is absent),
reject a mismatched extension, read the file through the oracle `fs`, trim
trailing whitespace, and build the session. -/
def Compiler.new (cwd input : String) (output : Option String)
    (fs : String → Option String) : NewResult :=
  let path := joinPath cwd.data input.data
  match pathExtension path with
  | none => NewResult.panicked
  | some extChars =>
    let extension := String.mk extChars
    if extension ≠ EXT then
      NewResult.err (ConstructError.invalidExtension extension EXT)
    else
      match fs (String.mk path) with
      | none => NewResult.err ConstructError.io
      | some contents =>
        NewResult.ok
          { input := input
            output := output
            contents := some (rustTrimEnd contents)
            ast := none
            context := []
            errors := [] }

/-- `Compiler::new_using_str` (`mod.rs:77-88`): store the supplied string
directly; infallible, no filesystem access, no extension check. -/
def Compiler.new_using_str (source : String) (contents : String) : Compiler :=
  { input := source
    output := none
    contents := some contents
    ast := none
    context := []
    errors := [] }

/-- `Compiler::new_using_ast` (`mod.rs:104-115`): store the supplied tree;
`contents` stays empty. -/
def Compiler.new_using_ast (source : String) (tree : Ast) : Compiler :=
  { input := source
    output := none
    contents := none
    ast := some tree
    context := []
    errors := [] }

/-- Modelled from the spec: `Scanner::scan` (`crate::prelude::Scanner`, not
under `src/`).  Per the spec's accumulate-then-report contract (sections 4.1
and 7), lexical diagnostics are appended to the session's error list rather
than raised, and the (possibly incomplete) token stream is returned; a
session holding no text (a syntax-tree session) scans nothing (section 4.1:
scanning is a no-op). -/
def Scanner.scan (c : Compiler) : Compiler × List Token :=
  match c.contents with
  | none => (c, [])
  | some text =>
    let r := seqScan text
    ({ c with errors := c.errors ++ r.2 }, r.1)

/-- The observable outcome of a lifecycle call: the updated session, the
token stream handed to the next phase (`dbg!` at `mod.rs:145`), and a trace
of whether the method constructed a Scanner and whether it ran `scan`. -/
structure CompileResult where
  session : Compiler
  tokens : List Token
  scannerConstructed : Bool
  scanRun : Bool
deriving DecidableEq

/-- `Compiler::compile` (`mod.rs:130-148`): unconditionally construct a
Scanner over the session (`mod.rs:142`) and run it (`mod.rs:143`); the
resulting tokens are dumped (`dbg!`) and the method returns success. -/
def Compiler.compile (c : Compiler) : CompileResult :=
  let r := Scanner.scan c
  { session := r.1, tokens := r.2, scannerConstructed := true, scanRun := true }

/-- `Compiler::interpret` (`mod.rs:163-167`): construct a Scanner
(`mod.rs:164`, bound to an unused variable), never run it, and return
success with the session untouched. -/
def Compiler.interpret (c : Compiler) : CompileResult :=
  { session := c, tokens := [], scannerConstructed := true, scanRun := false }

/-- The spec's mutual-exclusion invariant on a Session's source
representation: exactly one of text contents and syntax tree is present. -/
def exclusiveSource (c : Compiler) : Prop :=
  c.contents.isSome ≠ c.ast.isSome

/-- A concrete filesystem oracle used by the closed instantiations below:
one readable file at `/w/a.conj` whose contents end in whitespace. -/
def fsDemo : String → Option String :=
  fun p => if p = "/w/a.conj" then some "hi \t" else none

/-- Filling slots in any completion order produces the map that sends every
dispatched in-range index to its own line's result. -/
theorem taskStep_foldl (lines : List (List Char)) (order : List Nat)
    (acc : Nat → Option (List Token × Option Error)) (j : Nat) :
    order.foldl (taskStep lines) acc j
      = if j ∈ order ∧ j < lines.length
        then some (lineResult j (lines.getD j []))
        else acc j := by
  induction order generalizing acc with
  | nil => simp
  | cons i rest ih =>
    rw [List.foldl_cons, ih]
    by_cases hjr : j ∈ rest ∧ j < lines.length
    · simp [hjr, hjr.1, hjr.2, List.mem_cons]
    · by_cases hji : j = i
      · subst hji
        by_cases hjN : j < lines.length
        · simp [hjr, hjN, taskStep, List.mem_cons]
        · simp [hjr, hjN, taskStep, List.mem_cons]
      · by_cases hiN : i < lines.length
        · simp [hjr, hji, hiN, taskStep, List.mem_cons]
        · simp [hjr, hji, hiN, taskStep, List.mem_cons]

/-- The collection point, characterized: a slot holds exactly its own
line's scan result once that line's task has completed. -/
theorem taskResults_eq (lines : List (List Char)) (order : List Nat) (j : Nat) :
    taskResults lines order j
      = if j ∈ order ∧ j < lines.length
        then some (lineResult j (lines.getD j []))
        else none :=
  taskStep_foldl lines order (fun _ => none) j

/-- The trimmed text followed by the dropped suffix reassembles the
original text: trimming removes only a suffix. -/
theorem trimEndChars_append_suffix (l : List Char) :
    trimEndChars l ++ (l.reverse.takeWhile isRustWhitespace).reverse = l := by
  rw [trimEndChars, ← List.reverse_append, List.takeWhile_append_dropWhile,
    List.reverse_reverse]

/-- The head of `dropWhile p l`, when present, fails `p`. -/
theorem head_dropWhile_false (p : Char → Bool) (l : List Char) :
    ∀ ch, (l.dropWhile p).head? = some ch → p ch = false := by
  induction l with
  | nil => intro ch h; simp at h
  | cons a t ih =>
    intro ch h
    rw [List.dropWhile_cons] at h
    by_cases hp : p a
    · rw [if_pos hp] at h
      exact ih ch h
    · rw [if_neg hp] at h
      simp only [List.head?_cons, Option.some.injEq] at h
      subst h
      exact Bool.eq_false_iff.mpr hp

/-- The last character of the trimmed text, when present, is not
whitespace. -/
theorem trimEndChars_getLast_not_ws (l : List Char) :
    ∀ ch, (trimEndChars l).getLast? = some ch → isRustWhitespace ch = false := by
  intro ch h
  rw [trimEndChars, List.getLast?_reverse] at h
  exact head_dropWhile_false isRustWhitespace l.reverse ch h

/-- Every character of the dropped suffix is whitespace. -/
theorem trimEnd_suffix_ws (l : List Char) :
    ∀ ch ∈ (l.reverse.takeWhile isRustWhitespace).reverse,
      isRustWhitespace ch = true := by
  intro ch hch
  rw [List.mem_reverse] at hch
  exact List.mem_takeWhile_imp hch

/-- C1: for every input text, scanning sequentially and scanning in
parallel (per-line tasks completing in any order, collected keyed by line
index) produce identical token streams and identical diagnostic lists, so
the two modes are interchangeable behind the same interface. -/
theorem scan_modes_deterministic (text : String) (order : List Nat)
    (h : List.Perm order (List.range (splitLines text.data).length)) :
    parScan text order = some (seqScan text) := by
  have hm : ∀ j, j < (splitLines text.data).length →
      taskResults (splitLines text.data) order j
        = some (lineResult j ((splitLines text.data).getD j [])) := by
    intro j hj
    rw [taskResults_eq]
    exact if_pos ⟨h.mem_iff.2 (List.mem_range.2 hj), hj⟩
  have hall : ((List.range (splitLines text.data).length).all
      fun i => (taskResults (splitLines text.data) order i).isSome) = true := by
    rw [List.all_eq_true]
    intro i hi
    rw [hm i (List.mem_range.1 hi)]
    rfl
  have hmap : (List.range (splitLines text.data).length).map
        (fun i => (taskResults (splitLines text.data) order i).getD ([], none))
      = (List.range (splitLines text.data).length).map
        (fun i => lineResult i ((splitLines text.data).getD i [])) := by
    refine List.map_congr_left ?_
    intro i hi
    rw [hm i (List.mem_range.1 hi)]
    rfl
  simp only [parScan, seqScan, seqScanLines]
  rw [if_pos hall, hmap]

/-- C1 witness: a concrete three-line input scanned with completion order
2, 0, 1 reassembles to the sequential stream. -/
theorem scan_modes_deterministic_witness :
    parScan "1 + @\n2 + 3\n" [2, 0, 1] = some (seqScan "1 + @\n2 + 3\n") :=
  scan_modes_deterministic "1 + @\n2 + 3\n" [2, 0, 1] (by decide)

/-- C2: for every session whose source is text, `compile()` attempts every
line: the diagnostics appended to the session are exactly the per-line
diagnostics of all lines in index order, and the token stream handed back
is the concatenation of all per-line token lists — no scanning-time
lexical error short-circuits the scan. -/
theorem compile_accumulates_all_lines (c : Compiler) (text : String)
    (h : c.contents = some text) :
    (Compiler.compile c).session.errors
        = c.errors ++ (List.range (splitLines text.data).length).filterMap
            (fun i => (lineResult i ((splitLines text.data).getD i [])).2)
    ∧ (Compiler.compile c).tokens
        = ((List.range (splitLines text.data).length).map
            (fun i => (lineResult i ((splitLines text.data).getD i [])).1)).flatten := by
  constructor
  · simp [Compiler.compile, Scanner.scan, h, seqScan, seqScanLines,
      List.filterMap_map, Function.comp_def]
  · simp [Compiler.compile, Scanner.scan, h, seqScan, seqScanLines,
      List.map_map, Function.comp_def]

/-- C2 witness: on the spec's partial-failure input, the session receives
the line-1 diagnostic while line 2 still contributes its tokens. -/
theorem compile_accumulates_all_lines_witness :
    (Compiler.compile (Compiler.new_using_str "t" "1 + @\n2 + 3\n")).session.errors
        = (Compiler.new_using_str "t" "1 + @\n2 + 3\n").errors
          ++ (List.range (splitLines ("1 + @\n2 + 3\n" : String).data).length).filterMap
            (fun i => (lineResult i ((splitLines ("1 + @\n2 + 3\n" : String).data).getD i [])).2)
    ∧ (Compiler.compile (Compiler.new_using_str "t" "1 + @\n2 + 3\n")).tokens
        = ((List.range (splitLines ("1 + @\n2 + 3\n" : String).data).length).map
            (fun i => (lineResult i ((splitLines ("1 + @\n2 + 3\n" : String).data).getD i [])).1)).flatten :=
  compile_accumulates_all_lines (Compiler.new_using_str "t" "1 + @\n2 + 3\n")
    "1 + @\n2 + 3\n" rfl

/-- C3: whenever the resolved input path carries an extension different
from the required one, file-based construction fails with the
invalid-extension error; no Session is produced. -/
theorem new_rejects_wrong_extension (cwd input : String) (output : Option String)
    (fs : String → Option String) (ext : List Char)
    (h1 : pathExtension (joinPath cwd.data input.data) = some ext)
    (h2 : String.mk ext ≠ EXT) :
    Compiler.new cwd input output fs
      = NewResult.err (ConstructError.invalidExtension (String.mk ext) EXT) := by
  simp [Compiler.new, h1, h2]

/-- C3 witness: constructing from `a.txt` fails with the
invalid-extension error. -/
theorem new_rejects_wrong_extension_witness :
    Compiler.new "/w" "a.txt" none fsDemo
      = NewResult.err (ConstructError.invalidExtension (String.mk ['t', 'x', 't']) EXT) :=
  new_rejects_wrong_extension "/w" "a.txt" none fsDemo ['t', 'x', 't'] rfl (by decide)

/-- C7: for a path with the required extension, construction reads the
file through the oracle, fails with the io error when the read fails, and
on success stores exactly the file's contents with the trailing whitespace
suffix removed: the stored text followed by the dropped all-whitespace
suffix reassembles the original contents, and the stored text does not end
in whitespace. -/
theorem new_reads_and_trims (cwd input : String) (output : Option String)
    (fs : String → Option String)
    (h : pathExtension (joinPath cwd.data input.data) = some EXT.data) :
    (fs (String.mk (joinPath cwd.data input.data)) = none →
      Compiler.new cwd input output fs = NewResult.err ConstructError.io)
    ∧ (∀ txt : String, fs (String.mk (joinPath cwd.data input.data)) = some txt →
        Compiler.new cwd input output fs
          = NewResult.ok
              { input := input, output := output,
                contents := some (rustTrimEnd txt), ast := none,
                context := [], errors := [] }
        ∧ (rustTrimEnd txt).data ++ (txt.data.reverse.takeWhile isRustWhitespace).reverse
            = txt.data
        ∧ (∀ ch ∈ (txt.data.reverse.takeWhile isRustWhitespace).reverse,
            isRustWhitespace ch = true)
        ∧ (∀ ch, (rustTrimEnd txt).data.getLast? = some ch →
            isRustWhitespace ch = false)) := by
  have hmk : String.mk EXT.data = EXT := rfl
  constructor
  · intro hfs
    simp [Compiler.new, h, hmk, hfs]
  · intro txt hfs
    refine ⟨?_, trimEndChars_append_suffix txt.data, trimEnd_suffix_ws txt.data,
      trimEndChars_getLast_not_ws txt.data⟩
    simp [Compiler.new, h, hmk, hfs, rustTrimEnd]

/-- C7 witness: reading `/w/a.conj` through a failing oracle yields the io
error; through `fsDemo` it succeeds and stores the contents with its
trailing whitespace removed. -/
theorem new_reads_and_trims_witness :
    Compiler.new "/w" "a.conj" none (fun _ => none) = NewResult.err ConstructError.io
    ∧ Compiler.new "/w" "a.conj" none fsDemo
        = NewResult.ok
            { input := "a.conj", output := none,
              contents := some (rustTrimEnd "hi \t"), ast := none,
              context := [], errors := [] } :=
  ⟨(new_reads_and_trims "/w" "a.conj" none (fun _ => none) rfl).1 rfl,
   ((new_reads_and_trims "/w" "a.conj" none fsDemo rfl).2 "hi \t" rfl).1⟩

/-- C8: raw-text construction stores the supplied string directly (no
trimming, no filesystem oracle in its signature, no extension check) and
always succeeds: it is a total function into `Compiler`. -/
theorem new_using_str_stores_directly (source contents : String) :
    Compiler.new_using_str source contents
      = { input := source, output := none, contents := some contents,
          ast := none, context := [], errors := [] } :=
  rfl

/-- C9: each of the three construction entry points yields a session whose
diagnostic list is empty. -/
theorem constructors_empty_diagnostics :
    (∀ (cwd input : String) (output : Option String) (fs : String → Option String)
        (c : Compiler), Compiler.new cwd input output fs = NewResult.ok c → c.errors = [])
    ∧ (∀ source contents, (Compiler.new_using_str source contents).errors = [])
    ∧ (∀ source tree, (Compiler.new_using_ast source tree).errors = []) := by
  refine ⟨?_, fun _ _ => rfl, fun _ _ => rfl⟩
  intro cwd input output fs c h
  simp only [Compiler.new] at h
  split at h
  · exact absurd h (by simp)
  · split at h
    · exact absurd h (by simp)
    · split at h
      · exact absurd h (by simp)
      · cases h
        rfl

/-- C9 witness: the sessions produced by the three constructors on
concrete inputs all carry an empty diagnostic list. -/
theorem constructors_empty_diagnostics_witness :
    ({ input := "a.conj", output := none, contents := some (rustTrimEnd "hi \t"),
       ast := none, context := [], errors := [] } : Compiler).errors = []
    ∧ (Compiler.new_using_str "s" "body").errors = []
    ∧ (Compiler.new_using_ast "s" Ast.mk).errors = [] :=
  ⟨constructors_empty_diagnostics.1 "/w" "a.conj" none fsDemo _ rfl,
   constructors_empty_diagnostics.2.1 "s" "body",
   constructors_empty_diagnostics.2.2 "s" Ast.mk⟩

/-- C10: when the resolved path has no extension, file-based construction
panics (the `unwrap` at `mod.rs:41`) instead of returning an error. -/
theorem new_panics_without_extension (cwd input : String) (output : Option String)
    (fs : String → Option String)
    (h : pathExtension (joinPath cwd.data input.data) = none) :
    Compiler.new cwd input output fs = NewResult.panicked := by
  simp [Compiler.new, h]

/-- C10 witness: constructing from the extensionless path `README`
panics. -/
theorem new_panics_without_extension_witness :
    Compiler.new "/w" "README" none fsDemo = NewResult.panicked :=
  new_panics_without_extension "/w" "README" none fsDemo rfl

/-- C4 counterexample: `interpret()` does not invoke the scanning contract
of `compile()`: on the text session built from `"@"`, `compile()` records
a lexical diagnostic while `interpret()` leaves the diagnostic list empty,
and `interpret()` never runs the scan at all. -/
theorem interpret_skips_scanning_cex :
    (Compiler.compile (Compiler.new_using_str "t" "@")).session.errors
        ≠ (Compiler.interpret (Compiler.new_using_str "t" "@")).session.errors
    ∧ (Compiler.interpret (Compiler.new_using_str "t" "@")).scanRun = false :=
  ⟨by decide, rfl⟩

/-- C4 amended: `interpret()` constructs a Scanner but never runs it
(`mod.rs:164` binds it to an unused variable and returns success): the
session — its diagnostics included — is left unchanged and no token
stream is produced, so it does not invoke the scanning contract of
`compile()`. -/
theorem interpret_leaves_session_unchanged (c : Compiler) :
    Compiler.interpret c
      = { session := c, tokens := [], scannerConstructed := true, scanRun := false } :=
  rfl

/-- C5 counterexample: on a session constructed from a pre-built syntax
tree, `compile()` still constructs the Scanner and runs its scan
(`mod.rs:142-143` do so unconditionally), so "the Scanner is never
invoked" fails. -/
theorem ast_session_scanner_invoked_cex :
    (Compiler.compile (Compiler.new_using_ast "s" Ast.mk)).scannerConstructed = true
    ∧ (Compiler.compile (Compiler.new_using_ast "s" Ast.mk)).scanRun = true :=
  ⟨rfl, rfl⟩

/-- C5 amended: for a session holding no text (constructed from a
pre-built syntax tree), `compile()` still invokes the Scanner, but the
scan degenerates to a no-op: the session is returned unchanged — in
particular no lexical diagnostic is produced — and the token stream is
empty. -/
theorem compile_ast_session_noop (c : Compiler) (h : c.contents = none) :
    (Compiler.compile c).session = c
    ∧ (Compiler.compile c).tokens = []
    ∧ (Compiler.compile c).scanRun = true := by
  refine ⟨?_, ?_, rfl⟩ <;> simp [Compiler.compile, Scanner.scan, h]

/-- C5 witness: compiling the session built from a concrete syntax tree
leaves it unchanged and yields no tokens. -/
theorem compile_ast_session_noop_witness :
    (Compiler.compile (Compiler.new_using_ast "s" Ast.mk)).session
        = Compiler.new_using_ast "s" Ast.mk
    ∧ (Compiler.compile (Compiler.new_using_ast "s" Ast.mk)).tokens = []
    ∧ (Compiler.compile (Compiler.new_using_ast "s" Ast.mk)).scanRun = true :=
  compile_ast_session_noop (Compiler.new_using_ast "s" Ast.mk) rfl

/-- C6 counterexample: the representation does not enforce the
mutual-exclusion invariant: the `Compiler` type admits a value holding
neither text contents nor a syntax tree (the two fields are independently
optional, `mod.rs:17-18`). -/
theorem source_exclusivity_not_representational :
    ¬ exclusiveSource
        { input := "s", output := none, contents := none, ast := none,
          context := [], errors := [] } := by
  simp [exclusiveSource]

/-- C6 amended: exactly-one-of text and syntax tree holds after each of
the three constructors and is preserved by `compile()` and `interpret()`,
but only by convention: it is not enforced by the representation, which
keeps two independently optional fields. -/
theorem source_exclusivity_constructors_and_ops :
    (∀ (cwd input : String) (output : Option String) (fs : String → Option String)
        (c : Compiler), Compiler.new cwd input output fs = NewResult.ok c →
          exclusiveSource c)
    ∧ (∀ source contents, exclusiveSource (Compiler.new_using_str source contents))
    ∧ (∀ source tree, exclusiveSource (Compiler.new_using_ast source tree))
    ∧ (∀ c, exclusiveSource c → exclusiveSource (Compiler.compile c).session)
    ∧ (∀ c, exclusiveSource c → exclusiveSource (Compiler.interpret c).session) := by
  refine ⟨?_, fun _ _ => by simp [exclusiveSource, Compiler.new_using_str],
    fun _ _ => by simp [exclusiveSource, Compiler.new_using_ast], ?_, fun c hc => hc⟩
  · intro cwd input output fs c h
    simp only [Compiler.new] at h
    split at h
    · exact absurd h (by simp)
    · split at h
      · exact absurd h (by simp)
      · split at h
        · exact absurd h (by simp)
        · cases h
          simp [exclusiveSource]
  · intro c hc
    cases hcon : c.contents with
    | none => simpa [Compiler.compile, Scanner.scan, hcon] using hc
    | some text =>
      simp only [Compiler.compile, Scanner.scan, hcon]
      simpa [exclusiveSource, hcon] using hc

/-- C6 witness: the exclusivity predicate holds on sessions produced by
each constructor and survives `compile()` and `interpret()` on concrete
sessions. -/
theorem source_exclusivity_constructors_and_ops_witness :
    exclusiveSource
      ({ input := "a.conj", output := none, contents := some (rustTrimEnd "hi \t"),
         ast := none, context := [], errors := [] } : Compiler)
    ∧ exclusiveSource (Compiler.new_using_str "s" "body")
    ∧ exclusiveSource (Compiler.new_using_ast "s" Ast.mk)
    ∧ exclusiveSource (Compiler.compile (Compiler.new_using_str "s" "body")).session
    ∧ exclusiveSource (Compiler.interpret (Compiler.new_using_str "s" "body")).session :=
  ⟨source_exclusivity_constructors_and_ops.1 "/w" "a.conj" none fsDemo _ rfl,
   source_exclusivity_constructors_and_ops.2.1 "s" "body",
   source_exclusivity_constructors_and_ops.2.2.1 "s" Ast.mk,
   source_exclusivity_constructors_and_ops.2.2.2.1 _
     (source_exclusivity_constructors_and_ops.2.1 "s" "body"),
   source_exclusivity_constructors_and_ops.2.2.2.2 _
     (source_exclusivity_constructors_and_ops.2.1 "s" "body")⟩

end Conjure
